import Mathlib

/-!
Shallow embedding of `src/curency.py`.

The program fetches USD and EUR exchange rates from PrivatBank (card
rates, JSON objects keyed by `ccy`/`buy`/`sale`) and the NBU (official
rates, JSON objects keyed by `cc`/`rate`), merges them into one record
per tracked currency with the placeholder string "N/A" for any missing
field, and renders the records as a table (or a fixed failure message
when the record list is empty).

JSON scalar values are modelled by `Value` (strings, numbers as `ℚ`
since the code only copies them and never computes with them, and
`null` for any other JSON value).  A list element of an API response is
an `Item`: either a JSON object (an association list of fields) or
`malformed` (any non-object element, which the code skips via its
`isinstance(currency_data, dict)` check).
-/

/-- A JSON scalar value as it occurs in the two API responses.  Rates
are numbers; `buy`/`sale` are strings; `null` stands for any other JSON
value (so that dictionary lookups can produce values that are neither
tracked currency codes nor usable rates). -/
inductive Value where
  | str (s : String)
  | num (q : ℚ)
  | null
  deriving DecidableEq, Repr

/-- One element of a decoded JSON array: a JSON object (association
list of string-keyed fields) or a malformed (non-object) element. -/
inductive Item where
  | obj (fields : List (String × Value))
  | malformed
  deriving DecidableEq, Repr

/-- First-match association-list lookup; Python dictionaries have
unique keys, so this models `dict.get(key)` returning `None` on a
missing key. -/
def lookupField : List (String × Value) → String → Option Value
  | [], _ => none
  | (k, v) :: rest, key => if k = key then some v else lookupField rest key

/-- The placeholder value `'N/A'`. -/
def NA : Value := Value.str "N/A"

/-- Model of `dict.get(key, 'N/A')`: the field's value, or the placeholder when
the field is absent. -/
def getFieldD (fields : List (String × Value)) (key : String) : Value :=
  (lookupField fields key).getD NA

/-- The per-currency record held in `processed_rates`:
`{'buy_card': …, 'sale_card': …, 'nbu_rate': …}`. -/
structure Rates where
  buy_card : Value
  sale_card : Value
  nbu_rate : Value
  deriving DecidableEq, Repr

/-- The `processed_rates` dictionary.  Its keys are always exactly
`'USD'` and `'EUR'` (inserted in that order and never added to or
removed), so it is modelled as a pair of records. -/
structure ProcessedRates where
  usd : Rates
  eur : Rates
  deriving DecidableEq, Repr

/-- The initial `processed_rates` value: both tracked currencies with
all fields set to the placeholder. -/
def initialRates : ProcessedRates :=
  ⟨⟨NA, NA, NA⟩, ⟨NA, NA, NA⟩⟩

/-- One iteration of the PrivatBank processing loop:
`if isinstance(currency_data, dict) and currency_data.get('ccy') in processed_rates:`
then overwrite that currency's `buy_card`/`sale_card` with
`currency_data.get('buy', 'N/A')` / `currency_data.get('sale', 'N/A')`.
Membership of `get('ccy')` among the keys `'USD'`/`'EUR'` holds exactly
when the looked-up value is one of those two strings. -/
def processPB (st : ProcessedRates) (it : Item) : ProcessedRates :=
  match it with
  | Item.malformed => st
  | Item.obj fs =>
    match lookupField fs "ccy" with
    | some (Value.str c) =>
      if c = "USD" then
        { st with usd := { st.usd with
            buy_card := getFieldD fs "buy", sale_card := getFieldD fs "sale" } }
      else if c = "EUR" then
        { st with eur := { st.eur with
            buy_card := getFieldD fs "buy", sale_card := getFieldD fs "sale" } }
      else st
    | _ => st

/-- One iteration of the NBU processing loop:
`if isinstance(currency_data, dict) and currency_data.get('cc') in processed_rates:`
then overwrite that currency's `nbu_rate` with
`currency_data.get('rate', 'N/A')`. -/
def processNBU (st : ProcessedRates) (it : Item) : ProcessedRates :=
  match it with
  | Item.malformed => st
  | Item.obj fs =>
    match lookupField fs "cc" with
    | some (Value.str c) =>
      if c = "USD" then
        { st with usd := { st.usd with nbu_rate := getFieldD fs "rate" } }
      else if c = "EUR" then
        { st with eur := { st.eur with nbu_rate := getFieldD fs "rate" } }
      else st
    | _ => st

/-- One entry of `combined_rates_list`.  Field correspondence:
`valuta` ↔ `'Валюта'`, `buyCard` ↔ `'Покупка (карточный)'`,
`saleCard` ↔ `'Продажа (карточный)'`, `buyNBU` ↔ `'Покупка (НБУ)'`,
`saleNBU` ↔ `'Продажа (НБУ)'`. -/
structure RateEntry where
  valuta : String
  buyCard : Value
  saleCard : Value
  buyNBU : Value
  saleNBU : Value
  deriving DecidableEq, Repr

/-- The merge core of `get_privatbank_exchange_rates`, parameterised by
the two decoded lists (`pb_data_list`, `nbu_data_list`; an empty list
stands for a failed fetch).  The `if pb_data_list:` / `if
nbu_data_list:` guards in the source only skip the loop on an empty
list, which folding over the empty list does as well.  The final loop
over `processed_rates.items()` visits the keys in insertion order (USD
then EUR) and emits one entry per currency, with the single NBU rate
used for both the official buy and sell columns. -/
def get_privatbank_exchange_rates (pb_data_list nbu_data_list : List Item) :
    List RateEntry :=
  let st1 := List.foldl processPB initialRates pb_data_list
  let st2 := List.foldl processNBU st1 nbu_data_list
  [⟨"USD", st2.usd.buy_card, st2.usd.sale_card, st2.usd.nbu_rate, st2.usd.nbu_rate⟩,
   ⟨"EUR", st2.eur.buy_card, st2.eur.sale_card, st2.eur.nbu_rate, st2.eur.nbu_rate⟩]

/-- The table headers set by `table.field_names`. -/
def field_names : List String :=
  ["Валюта", "Покупка (карточный)", "Продажа (карточный)",
   "Покупка (НБУ)", "Продажа (НБУ)"]

/-- The row added for one entry by `table.add_row([...])`: the five
field values in header order. -/
def rowOf (e : RateEntry) : List Value :=
  [Value.str e.valuta, e.buyCard, e.saleCard, e.buyNBU, e.saleNBU]

/-- The console output of `show_exchange_rates`: either a table
(headers plus rows) or the fixed failure message. -/
inductive Output where
  | table (headers : List String) (rows : List (List Value))
  | failureMessage (msg : String)
  deriving DecidableEq, Repr

/-- The presenter `show_exchange_rates`: on a non-empty list, build the table with
the five headers and one row per entry in list order; on an empty list,
print the fixed failure message. -/
def show_exchange_rates (rates : List RateEntry) : Output :=
  match rates with
  | [] => Output.failureMessage "Ошибка при запросе курса валют"
  | _ => Output.table field_names (List.map rowOf rates)

/-- The decoded body of a 200 response: either a JSON array of items,
or undecodable (raising `json.JSONDecodeError` in `response.json()`). -/
inductive JsonBody where
  | decodes (items : List Item)
  | undecodable
  deriving DecidableEq, Repr

/-- The outcome of `requests.get(url, timeout=10)`: an HTTP response
with a status code and body, or one of the exceptions the source
catches (`Timeout`, `ConnectionError`, any other `RequestException`). -/
inductive HttpResult where
  | response (status : Nat) (body : JsonBody)
  | timeout
  | connectionError
  | otherRequestException (msg : String)
  deriving DecidableEq, Repr

/-- The PrivatBank fetch block: returns the diagnostics printed and the
value of `pb_data_list` after the try/except.  Every failure path
prints exactly one message and leaves the list empty; only a 200
response with a decodable body yields data. -/
def fetchPrivat : HttpResult → List String × List Item
  | HttpResult.response status body =>
    if status = 200 then
      match body with
      | JsonBody.decodes items => ([], items)
      | JsonBody.undecodable =>
        (["Error: Could not decode JSON response from PrivatBank API."], [])
    else
      (["Error: PrivatBank API returned status code " ++ toString status ++ "."], [])
  | HttpResult.timeout => (["Error: Request to PrivatBank API timed out."], [])
  | HttpResult.connectionError => (["Error: Could not connect to PrivatBank API."], [])
  | HttpResult.otherRequestException e => (["Error fetching PrivatBank rates: " ++ e], [])

/-- The NBU fetch block, structured exactly like the PrivatBank one. -/
def fetchNBU : HttpResult → List String × List Item
  | HttpResult.response status body =>
    if status = 200 then
      match body with
      | JsonBody.decodes items => ([], items)
      | JsonBody.undecodable =>
        (["Error: Could not decode JSON response from NBU API."], [])
    else
      (["Error: NBU API returned status code " ++ toString status ++ "."], [])
  | HttpResult.timeout => (["Error: Request to NBU API timed out."], [])
  | HttpResult.connectionError => (["Error: Could not connect to NBU API."], [])
  | HttpResult.otherRequestException e => (["Error fetching NBU rates: " ++ e], [])

/-- Whether a fetch outcome takes one of the failure paths (anything
other than a 200 response with a decodable JSON body). -/
def isFetchFailure : HttpResult → Bool
  | HttpResult.response status (JsonBody.decodes _) => status != 200
  | HttpResult.response _ JsonBody.undecodable => true
  | HttpResult.timeout => true
  | HttpResult.connectionError => true
  | HttpResult.otherRequestException _ => true

/-- The whole of `get_privatbank_exchange_rates` including the two
fetch blocks, parameterised by the outcome of each HTTP request:
returns the diagnostics printed (PrivatBank's first, then NBU's) and
the merged rate list. -/
def get_privatbank_exchange_rates_full (rPB rNBU : HttpResult) :
    List String × List RateEntry :=
  let pbRes := fetchPrivat rPB
  let nbuRes := fetchNBU rNBU
  (pbRes.1 ++ nbuRes.1, get_privatbank_exchange_rates pbRes.2 nbuRes.2)

/-! ## Characterisation of the two processing folds -/

/-- The effect of one PrivatBank loop iteration on one field of one
tracked currency's record: updated exactly when the item is an object
whose `ccy` field equals that currency code. -/
def pbStep (code fld : String) (v : Value) (it : Item) : Value :=
  match it with
  | Item.malformed => v
  | Item.obj fs =>
    match lookupField fs "ccy" with
    | some (Value.str c) => if c = code then getFieldD fs fld else v
    | _ => v

/-- The effect of one NBU loop iteration on one tracked currency's
`nbu_rate`: updated exactly when the item is an object whose `cc` field
equals that currency code. -/
def nbuStep (code : String) (v : Value) (it : Item) : Value :=
  match it with
  | Item.malformed => v
  | Item.obj fs =>
    match lookupField fs "cc" with
    | some (Value.str c) => if c = code then getFieldD fs "rate" else v
    | _ => v

/-- The official rate the NBU list supplies for a tracked currency
code: the `rate` field of the last object whose `cc` equals the code
(the placeholder when there is no such object). -/
def lastOfficialRate (code : String) (l : List Item) : Value :=
  List.foldl (nbuStep code) NA l

theorem processPB_char (st : ProcessedRates) (it : Item) :
    processPB st it =
      ⟨⟨pbStep "USD" "buy" st.usd.buy_card it,
        pbStep "USD" "sale" st.usd.sale_card it,
        st.usd.nbu_rate⟩,
       ⟨pbStep "EUR" "buy" st.eur.buy_card it,
        pbStep "EUR" "sale" st.eur.sale_card it,
        st.eur.nbu_rate⟩⟩ := by
  cases it with
  | malformed => rfl
  | obj fs =>
    simp only [processPB, pbStep]
    cases h : lookupField fs "ccy" with
    | none => rfl
    | some v =>
      cases v with
      | num q => rfl
      | null => rfl
      | str c =>
        by_cases h1 : c = "USD"
        · subst h1; simp
        · by_cases h2 : c = "EUR"
          · subst h2; simp
          · simp [h1, h2]

theorem processNBU_char (st : ProcessedRates) (it : Item) :
    processNBU st it =
      ⟨⟨st.usd.buy_card, st.usd.sale_card, nbuStep "USD" st.usd.nbu_rate it⟩,
       ⟨st.eur.buy_card, st.eur.sale_card, nbuStep "EUR" st.eur.nbu_rate it⟩⟩ := by
  cases it with
  | malformed => rfl
  | obj fs =>
    simp only [processNBU, nbuStep]
    cases h : lookupField fs "cc" with
    | none => rfl
    | some v =>
      cases v with
      | num q => rfl
      | null => rfl
      | str c =>
        by_cases h1 : c = "USD"
        · subst h1; simp
        · by_cases h2 : c = "EUR"
          · subst h2; simp
          · simp [h1, h2]

theorem foldl_processPB_char (l : List Item) (st : ProcessedRates) :
    List.foldl processPB st l =
      ⟨⟨List.foldl (pbStep "USD" "buy") st.usd.buy_card l,
        List.foldl (pbStep "USD" "sale") st.usd.sale_card l,
        st.usd.nbu_rate⟩,
       ⟨List.foldl (pbStep "EUR" "buy") st.eur.buy_card l,
        List.foldl (pbStep "EUR" "sale") st.eur.sale_card l,
        st.eur.nbu_rate⟩⟩ := by
  induction l generalizing st with
  | nil => rfl
  | cons it rest ih =>
    rw [List.foldl_cons, ih, processPB_char]
    rfl

theorem foldl_processNBU_char (l : List Item) (st : ProcessedRates) :
    List.foldl processNBU st l =
      ⟨⟨st.usd.buy_card, st.usd.sale_card,
        List.foldl (nbuStep "USD") st.usd.nbu_rate l⟩,
       ⟨st.eur.buy_card, st.eur.sale_card,
        List.foldl (nbuStep "EUR") st.eur.nbu_rate l⟩⟩ := by
  induction l generalizing st with
  | nil => rfl
  | cons it rest ih =>
    rw [List.foldl_cons, ih, processNBU_char]
    rfl

/-- Whether a PrivatBank-list item writes to the record of the given
currency code: it must be an object whose `ccy` field is that code. -/
def pbWrites (code : String) (it : Item) : Bool :=
  match it with
  | Item.malformed => false
  | Item.obj fs =>
    match lookupField fs "ccy" with
    | some (Value.str c) => c == code
    | _ => false

/-- Whether an NBU-list item writes to the record of the given currency
code: it must be an object whose `cc` field is that code. -/
def nbuWrites (code : String) (it : Item) : Bool :=
  match it with
  | Item.malformed => false
  | Item.obj fs =>
    match lookupField fs "cc" with
    | some (Value.str c) => c == code
    | _ => false

/-- A PrivatBank-list item is tracked when it writes to some tracked
currency; everything else (malformed items, untracked codes, non-string
codes, missing `ccy` field) is skipped by the loop. -/
def trackedPB (it : Item) : Bool :=
  pbWrites "USD" it || pbWrites "EUR" it

/-- The NBU-list counterpart of `trackedPB`, keyed on `cc`. -/
def trackedNBU (it : Item) : Bool :=
  nbuWrites "USD" it || nbuWrites "EUR" it

theorem pbStep_no_write (code fld : String) (v : Value) (it : Item)
    (h : pbWrites code it = false) : pbStep code fld v it = v := by
  cases it with
  | malformed => rfl
  | obj fs =>
    simp only [pbWrites] at h
    simp only [pbStep]
    cases hl : lookupField fs "ccy" with
    | none => rfl
    | some v2 =>
      cases v2 with
      | num q => rfl
      | null => rfl
      | str c =>
        rw [hl] at h
        simp only [beq_eq_false_iff_ne, ne_eq] at h
        simp [h]

theorem nbuStep_no_write (code : String) (v : Value) (it : Item)
    (h : nbuWrites code it = false) : nbuStep code v it = v := by
  cases it with
  | malformed => rfl
  | obj fs =>
    simp only [nbuWrites] at h
    simp only [nbuStep]
    cases hl : lookupField fs "cc" with
    | none => rfl
    | some v2 =>
      cases v2 with
      | num q => rfl
      | null => rfl
      | str c =>
        rw [hl] at h
        simp only [beq_eq_false_iff_ne, ne_eq] at h
        simp [h]

theorem pbStep_write (code fld : String) (v : Value) (fs : List (String × Value))
    (h : lookupField fs "ccy" = some (Value.str code)) :
    pbStep code fld v (Item.obj fs) = getFieldD fs fld := by
  simp [pbStep, h]

theorem nbuStep_write (code : String) (v : Value) (fs : List (String × Value))
    (h : lookupField fs "cc" = some (Value.str code)) :
    nbuStep code v (Item.obj fs) = getFieldD fs "rate" := by
  simp [nbuStep, h]

theorem foldl_pbStep_no_write (code fld : String) (v : Value) (l : List Item)
    (h : ∀ it ∈ l, pbWrites code it = false) :
    List.foldl (pbStep code fld) v l = v := by
  induction l generalizing v with
  | nil => rfl
  | cons it rest ih =>
    rw [List.foldl_cons, pbStep_no_write _ _ _ _ (h it (List.mem_cons_self _ _))]
    exact ih _ (fun x hx => h x (List.mem_cons_of_mem _ hx))

theorem foldl_nbuStep_no_write (code : String) (v : Value) (l : List Item)
    (h : ∀ it ∈ l, nbuWrites code it = false) :
    List.foldl (nbuStep code) v l = v := by
  induction l generalizing v with
  | nil => rfl
  | cons it rest ih =>
    rw [List.foldl_cons, nbuStep_no_write _ _ _ (h it (List.mem_cons_self _ _))]
    exact ih _ (fun x hx => h x (List.mem_cons_of_mem _ hx))

/-- Closed form of the merge core: each entry's card fields come from
folding the PrivatBank list, each entry's two official-rate fields are
the last official rate the NBU list supplies for that currency. -/
theorem get_rates_char (pb nbu : List Item) :
    get_privatbank_exchange_rates pb nbu =
      [⟨"USD", List.foldl (pbStep "USD" "buy") NA pb,
        List.foldl (pbStep "USD" "sale") NA pb,
        lastOfficialRate "USD" nbu, lastOfficialRate "USD" nbu⟩,
       ⟨"EUR", List.foldl (pbStep "EUR" "buy") NA pb,
        List.foldl (pbStep "EUR" "sale") NA pb,
        lastOfficialRate "EUR" nbu, lastOfficialRate "EUR" nbu⟩] := by
  simp only [get_privatbank_exchange_rates, foldl_processPB_char, foldl_processNBU_char,
    lastOfficialRate, initialRates]

/-! ## Claims -/

/-- C1: for every pair of input lists (including empty lists from
failed fetches), the merged result of `get_privatbank_exchange_rates`
contains exactly two records, one for USD and one for EUR, and no
others. -/
theorem merged_exactly_usd_eur (pb nbu : List Item) :
    (get_privatbank_exchange_rates pb nbu).length = 2 ∧
    (List.map RateEntry.valuta (get_privatbank_exchange_rates pb nbu)).count "USD" = 1 ∧
    (List.map RateEntry.valuta (get_privatbank_exchange_rates pb nbu)).count "EUR" = 1 := by
  rw [get_rates_char]
  refine ⟨rfl, ?_, ?_⟩ <;> rfl

/-- C2: the merge step always yields a non-empty list, so
`show_exchange_rates` applied to a merger output renders a table and
never emits the fixed failure message. -/
theorem merger_output_never_empty (pb nbu : List Item) :
    get_privatbank_exchange_rates pb nbu ≠ [] ∧
    show_exchange_rates (get_privatbank_exchange_rates pb nbu) ≠
      Output.failureMessage "Ошибка при запросе курса валют" ∧
    show_exchange_rates (get_privatbank_exchange_rates pb nbu) =
      Output.table field_names
        (List.map rowOf (get_privatbank_exchange_rates pb nbu)) := by
  rw [get_rates_char]
  exact ⟨by simp, by simp [show_exchange_rates], rfl⟩

/-- C3: an item that is malformed or whose currency code is untracked
for its source's loop is silently skipped: the processing step leaves
both the USD and the EUR record exactly as they were. -/
theorem untracked_or_malformed_skipped (st : ProcessedRates) (it : Item) :
    (trackedPB it = false → processPB st it = st) ∧
    (trackedNBU it = false → processNBU st it = st) := by
  constructor
  · intro h
    simp only [trackedPB, Bool.or_eq_false_iff] at h
    rw [processPB_char, pbStep_no_write _ _ _ _ h.1, pbStep_no_write _ _ _ _ h.1,
      pbStep_no_write _ _ _ _ h.2, pbStep_no_write _ _ _ _ h.2]
  · intro h
    simp only [trackedNBU, Bool.or_eq_false_iff] at h
    rw [processNBU_char, nbuStep_no_write _ _ _ h.1, nbuStep_no_write _ _ _ h.2]

/-- Witness for C3: a malformed item and an object with the untracked
code GBP are both skipped by both loops, at a concrete state. -/
theorem untracked_or_malformed_skipped_witness :
    processPB initialRates (Item.obj [("ccy", Value.str "GBP")]) = initialRates ∧
    processNBU initialRates Item.malformed = initialRates :=
  ⟨(untracked_or_malformed_skipped initialRates
      (Item.obj [("ccy", Value.str "GBP")])).1 (by decide),
   (untracked_or_malformed_skipped initialRates Item.malformed).2 (by decide)⟩

/-- C4: with a commercial object `ccy=USD, buy="27.10", sale="27.50"`
and an official object `cc=USD, rate=27.3`, the merged USD record keeps
the textual card rates and the numeric official rate unchanged. -/
theorem usd_example_record :
    (get_privatbank_exchange_rates
        [Item.obj [("ccy", Value.str "USD"), ("buy", Value.str "27.10"),
                   ("sale", Value.str "27.50")]]
        [Item.obj [("cc", Value.str "USD"), ("rate", Value.num (27.3 : ℚ))]]).head? =
      some ⟨"USD", Value.str "27.10", Value.str "27.50",
        Value.num (27.3 : ℚ), Value.num (27.3 : ℚ)⟩ := by
  rfl

/-- C7: the merged output lists the USD record first and the EUR record
second, whatever the input lists contain. -/
theorem usd_first_eur_second (pb nbu : List Item) :
    List.map RateEntry.valuta (get_privatbank_exchange_rates pb nbu) = ["USD", "EUR"] := by
  rw [get_rates_char]
  rfl

/-- C8: in every record the merger produces, the official-buy and
official-sell fields are equal. -/
theorem official_buy_eq_official_sell (pb nbu : List Item) :
    ∀ e ∈ get_privatbank_exchange_rates pb nbu, e.buyNBU = e.saleNBU := by
  rw [get_rates_char]
  intro e he
  simp only [List.mem_cons, List.not_mem_nil, or_false] at he
  rcases he with h | h <;> subst h <;> rfl

/-- Witness for C8: the USD record of a run with empty inputs has equal
official-buy and official-sell fields. -/
theorem official_buy_eq_official_sell_witness :
    (RateEntry.mk "USD" NA NA NA NA).buyNBU = (RateEntry.mk "USD" NA NA NA NA).saleNBU :=
  official_buy_eq_official_sell [] [] (RateEntry.mk "USD" NA NA NA NA) (by decide)

/-- C5: when the commercial list is empty and the official list is
whatever the official source supplied, every merged record carries the
placeholder in both card fields, and its official-rate fields equal the
rate the official list supplies for that currency. -/
theorem commercial_empty_official_rates (nbu : List Item) :
    ∀ e ∈ get_privatbank_exchange_rates [] nbu,
      e.buyCard = NA ∧ e.saleCard = NA ∧
      e.buyNBU = lastOfficialRate e.valuta nbu ∧
      e.saleNBU = lastOfficialRate e.valuta nbu := by
  rw [get_rates_char]
  intro e he
  simp only [List.mem_cons, List.not_mem_nil, or_false] at he
  rcases he with h | h <;> subst h <;> exact ⟨rfl, rfl, rfl, rfl⟩

/-- Witness for C5: with only an official EUR quote of 42, the merged
EUR record has placeholder cards and official rate 42. -/
theorem commercial_empty_official_rates_witness :
    (RateEntry.mk "EUR" NA NA (Value.num 42) (Value.num 42)).buyCard = NA ∧
    (RateEntry.mk "EUR" NA NA (Value.num 42) (Value.num 42)).buyNBU =
      lastOfficialRate "EUR" [Item.obj [("cc", Value.str "EUR"), ("rate", Value.num 42)]] :=
  ⟨(commercial_empty_official_rates
      [Item.obj [("cc", Value.str "EUR"), ("rate", Value.num 42)]] _ (by decide)).1,
   (commercial_empty_official_rates
      [Item.obj [("cc", Value.str "EUR"), ("rate", Value.num 42)]] _ (by decide)).2.2.1⟩

/-- C6: every failing fetch outcome (non-200 status, undecodable body,
timeout, connection failure, other request exception) prints exactly
one diagnostic and yields an empty list, and the program still merges
and renders a table. -/
theorem fetch_failure_isolated (r r2 : HttpResult) (h : isFetchFailure r = true) :
    (fetchPrivat r).1.length = 1 ∧ (fetchPrivat r).2 = [] ∧
    (fetchNBU r).1.length = 1 ∧ (fetchNBU r).2 = [] ∧
    (get_privatbank_exchange_rates_full r r2).2 ≠ [] ∧
    show_exchange_rates (get_privatbank_exchange_rates_full r r2).2 =
      Output.table field_names
        (List.map rowOf (get_privatbank_exchange_rates_full r r2).2) := by
  have hP : (fetchPrivat r).1.length = 1 ∧ (fetchPrivat r).2 = [] := by
    cases r with
    | response status body =>
      cases body with
      | decodes items =>
        simp only [isFetchFailure, bne_iff_ne, ne_eq] at h
        simp [fetchPrivat, h]
      | undecodable =>
        by_cases hs : status = 200 <;> simp [fetchPrivat, hs]
    | timeout => exact ⟨rfl, rfl⟩
    | connectionError => exact ⟨rfl, rfl⟩
    | otherRequestException msg => exact ⟨rfl, rfl⟩
  have hN : (fetchNBU r).1.length = 1 ∧ (fetchNBU r).2 = [] := by
    cases r with
    | response status body =>
      cases body with
      | decodes items =>
        simp only [isFetchFailure, bne_iff_ne, ne_eq] at h
        simp [fetchNBU, h]
      | undecodable =>
        by_cases hs : status = 200 <;> simp [fetchNBU, hs]
    | timeout => exact ⟨rfl, rfl⟩
    | connectionError => exact ⟨rfl, rfl⟩
    | otherRequestException msg => exact ⟨rfl, rfl⟩
  have hfull : (get_privatbank_exchange_rates_full r r2).2 =
      get_privatbank_exchange_rates (fetchPrivat r).2 (fetchNBU r2).2 := by
    simp only [get_privatbank_exchange_rates_full]
  refine ⟨hP.1, hP.2, hN.1, hN.2, ?_, ?_⟩
  · rw [hfull, get_rates_char]
    simp
  · rw [hfull, get_rates_char]
    rfl

/-- Witness for C6: a timeout on both requests prints one diagnostic
per source, yields empty lists, and the program still renders a
table. -/
theorem fetch_failure_isolated_witness :
    (fetchPrivat HttpResult.timeout).1.length = 1 ∧
    (fetchPrivat HttpResult.timeout).2 = [] ∧
    (fetchNBU HttpResult.timeout).1.length = 1 ∧
    (fetchNBU HttpResult.timeout).2 = [] ∧
    (get_privatbank_exchange_rates_full HttpResult.timeout HttpResult.timeout).2 ≠ [] ∧
    show_exchange_rates
        (get_privatbank_exchange_rates_full HttpResult.timeout HttpResult.timeout).2 =
      Output.table field_names
        (List.map rowOf
          (get_privatbank_exchange_rates_full HttpResult.timeout HttpResult.timeout).2) :=
  fetch_failure_isolated HttpResult.timeout HttpResult.timeout (by decide)

/-- Every row built by the presenter has the five field values. -/
theorem rowOf_lengths (l : List RateEntry) :
    List.map List.length (List.map rowOf l) = List.replicate l.length 5 := by
  induction l with
  | nil => rfl
  | cons a t ih => simp [rowOf, List.replicate_succ, ih]

/-- C9: on a non-empty record list, `show_exchange_rates` renders the
table with the five headers and one five-value row per record, in input
order, and produces nothing else. -/
theorem show_nonempty_renders (rates : List RateEntry) (h : rates ≠ []) :
    show_exchange_rates rates = Output.table field_names (List.map rowOf rates) ∧
    field_names.length = 5 ∧
    (List.map rowOf rates).length = rates.length ∧
    List.map List.length (List.map rowOf rates) = List.replicate rates.length 5 := by
  refine ⟨?_, rfl, List.length_map _ _, rowOf_lengths rates⟩
  cases rates with
  | nil => exact absurd rfl h
  | cons a l => rfl

/-- Witness for C9: rendering a concrete one-record list. -/
theorem show_nonempty_renders_witness :
    show_exchange_rates [RateEntry.mk "USD" NA NA NA NA] =
      Output.table field_names (List.map rowOf [RateEntry.mk "USD" NA NA NA NA]) ∧
    field_names.length = 5 ∧
    (List.map rowOf [RateEntry.mk "USD" NA NA NA NA]).length =
      ([RateEntry.mk "USD" NA NA NA NA] : List RateEntry).length ∧
    List.map List.length (List.map rowOf [RateEntry.mk "USD" NA NA NA NA]) =
      List.replicate ([RateEntry.mk "USD" NA NA NA NA] : List RateEntry).length 5 :=
  show_nonempty_renders [RateEntry.mk "USD" NA NA NA NA] (by decide)

/-- The merged record for a given currency code: the first entry of the
output list whose `'Валюта'` field equals that code. -/
def entryFor (code : String) : List RateEntry → Option RateEntry
  | [] => none
  | e :: rest => if e.valuta = code then some e else entryFor code rest

/-- C10: if a source list contains an object with a tracked currency
code followed only by items that do not write to that currency, the
merged record for that currency carries exactly that object's values —
each later tracked-code object overwrites the fields written by earlier
ones.  The commercial and official scenarios are independent: each part
holds for any tracked code and an arbitrary other-source list. -/
theorem last_tracked_object_wins (code : String)
    (hcode : code = "USD" ∨ code = "EUR")
    (l1 : List Item) (fs : List (String × Value)) (l2 : List Item) (nbu : List Item)
    (pb : List Item) (m1 : List Item) (gs : List (String × Value)) (m2 : List Item) :
    ((lookupField fs "ccy" = some (Value.str code) →
      (∀ it ∈ l2, pbWrites code it = false) →
      (entryFor code (get_privatbank_exchange_rates (l1 ++ Item.obj fs :: l2) nbu)).map
          RateEntry.buyCard = some (getFieldD fs "buy") ∧
      (entryFor code (get_privatbank_exchange_rates (l1 ++ Item.obj fs :: l2) nbu)).map
          RateEntry.saleCard = some (getFieldD fs "sale"))) ∧
    ((lookupField gs "cc" = some (Value.str code) →
      (∀ it ∈ m2, nbuWrites code it = false) →
      (entryFor code (get_privatbank_exchange_rates pb (m1 ++ Item.obj gs :: m2))).map
          RateEntry.buyNBU = some (getFieldD gs "rate") ∧
      (entryFor code (get_privatbank_exchange_rates pb (m1 ++ Item.obj gs :: m2))).map
          RateEntry.saleNBU = some (getFieldD gs "rate"))) := by
  constructor
  · intro hfs hl2
    have hbuy : List.foldl (pbStep code "buy") NA (l1 ++ Item.obj fs :: l2) =
        getFieldD fs "buy" := by
      rw [List.foldl_append, List.foldl_cons, pbStep_write _ _ _ _ hfs,
        foldl_pbStep_no_write _ _ _ _ hl2]
    have hsale : List.foldl (pbStep code "sale") NA (l1 ++ Item.obj fs :: l2) =
        getFieldD fs "sale" := by
      rw [List.foldl_append, List.foldl_cons, pbStep_write _ _ _ _ hfs,
        foldl_pbStep_no_write _ _ _ _ hl2]
    rcases hcode with h | h <;> subst h <;> rw [get_rates_char] <;>
      exact ⟨congrArg some hbuy, congrArg some hsale⟩
  · intro hgs hm2
    have hrate : lastOfficialRate code (m1 ++ Item.obj gs :: m2) =
        getFieldD gs "rate" := by
      rw [lastOfficialRate, List.foldl_append, List.foldl_cons, nbuStep_write _ _ _ hgs,
        foldl_nbuStep_no_write _ _ _ hm2]
    rcases hcode with h | h <;> subst h <;> rw [get_rates_char] <;>
      exact ⟨congrArg some hrate, congrArg some hrate⟩

/-- Witness for C10: two USD objects in the commercial list with an
empty official list give the USD record the later card rate "3.0";
two EUR objects in the official list with an empty commercial list
give the EUR record the later official rate 44. -/
theorem last_tracked_object_wins_witness :
    ((entryFor "USD"
        (get_privatbank_exchange_rates
          [Item.obj [("ccy", Value.str "USD"), ("buy", Value.str "1.0"),
                     ("sale", Value.str "2.0")],
           Item.obj [("ccy", Value.str "USD"), ("buy", Value.str "3.0"),
                     ("sale", Value.str "4.0")]] [])).map RateEntry.buyCard =
      some (Value.str "3.0")) ∧
    ((entryFor "EUR"
        (get_privatbank_exchange_rates []
          [Item.obj [("cc", Value.str "EUR"), ("rate", Value.num 40)],
           Item.obj [("cc", Value.str "EUR"), ("rate", Value.num 44)]])).map
      RateEntry.buyNBU = some (Value.num 44)) := by
  constructor
  · exact ((last_tracked_object_wins "USD" (Or.inl rfl)
      [Item.obj [("ccy", Value.str "USD"), ("buy", Value.str "1.0"),
                 ("sale", Value.str "2.0")]]
      [("ccy", Value.str "USD"), ("buy", Value.str "3.0"), ("sale", Value.str "4.0")]
      [] [] [] [] [] []).1 (by decide) (by decide)).1
  · exact ((last_tracked_object_wins "EUR" (Or.inr rfl)
      [] [] [] [] []
      [Item.obj [("cc", Value.str "EUR"), ("rate", Value.num 40)]]
      [("cc", Value.str "EUR"), ("rate", Value.num 44)] []).2 (by decide) (by decide)).1
